import Mathlib

/-!
Verification of the PDF-Text-Parser classification-and-organization pipeline.

The definitions below are a shallow embedding of the JavaScript source:
  - src/lib/classifier.js   (DocumentClassifier: prompt building, free-text
    response parsing/validation, sequential batch orchestration)
  - src/lib/pdfParser.js    (FileOrganizer: folder mapping, per-category
    numbering, duplicate-name resolution, summary statistics)

JavaScript numbers that can be NaN are modelled as JsNum = Option Rat,
with none standing for NaN; Math.min / Math.max / comparisons propagate
or reject none exactly as JavaScript propagates NaN.  Strings are Lean
Strings; character-level work happens on List Char.  The file system is
modelled as the list of existing file paths.  The model/OCR collaborators
are oracles (Except String String): ok = a reply, error = a thrown
exception's message.
-/

namespace PdfTextParser

/-! ## JavaScript whitespace and small string utilities (ASCII fragment) -/

/-- ASCII whitespace characters recognised by the JS regex class for
whitespace inside a single line (a line produced by splitting on a
newline cannot contain a newline itself). -/
def isWsChar (c : Char) : Bool :=
  c = ' ' || c = '\t' || c = '\x0b' || c = '\x0c' || c = '\r'

/-- Whitespace for String.prototype.trim, which also strips line
terminators. -/
def isTrimChar (c : Char) : Bool :=
  isWsChar c || c = '\n'

/-- JS String.prototype.trim on a character list. -/
def jsTrimL (s : List Char) : List Char :=
  ((s.dropWhile isTrimChar).reverse.dropWhile isTrimChar).reverse

def jsTrimStr (s : String) : String :=
  ⟨jsTrimL s.data⟩

/-- Case-sensitive "does s start with tok". -/
def startsWithL : List Char → List Char → Bool
  | [], _ => true
  | _ :: _, [] => false
  | t :: ts, c :: cs => t = c && startsWithL ts cs

/-- Case-sensitive substring test: JS String.prototype.includes. -/
def containsSubL (tok : List Char) : List Char → Bool
  | [] => startsWithL tok []
  | c :: cs => startsWithL tok (c :: cs) || containsSubL tok cs

def containsSubStr (tok s : String) : Bool :=
  containsSubL tok.data s.data

/-- Case-insensitive (ASCII) "does s start with tok". -/
def startsWithCIL : List Char → List Char → Bool
  | [], _ => true
  | _ :: _, [] => false
  | t :: ts, c :: cs => t.toLower = c.toLower && startsWithCIL ts cs

/-- Splitting on newline characters: JS String.prototype.split with a
newline separator, which keeps empty pieces and yields one piece for
the empty string. -/
def splitNlL : List Char → List (List Char)
  | [] => [[]]
  | c :: cs =>
    if c = '\n' then [] :: splitNlL cs
    else
      match splitNlL cs with
      | [] => [[c]]
      | l :: ls => (c :: l) :: ls

/-! ## Decimal rendering of counters (Number.prototype.toString) -/

def digitChar : Nat → Char
  | 0 => '0' | 1 => '1' | 2 => '2' | 3 => '3' | 4 => '4'
  | 5 => '5' | 6 => '6' | 7 => '7' | 8 => '8' | _ => '9'

def digitVal (c : Char) : Nat :=
  match c with
  | '0' => 0 | '1' => 1 | '2' => 2 | '3' => 3 | '4' => 4
  | '5' => 5 | '6' => 6 | '7' => 7 | '8' => 8 | _ => 9

/-- Big-endian decimal digits of n.  The fuel argument only serves
structural termination; fuel > n always suffices because n / 10 < n. -/
def natDigitsAux : Nat → Nat → List Char
  | 0, _ => []
  | fuel + 1, n =>
    if n < 10 then [digitChar n]
    else natDigitsAux fuel (n / 10) ++ [digitChar (n % 10)]

/-- Decimal rendering of a natural number, as JS Number.toString
produces for the (integral, small) counters used by the organizer. -/
def natToString (n : Nat) : String :=
  ⟨natDigitsAux (n + 1) n⟩

/-- Value of a big-endian digit list. -/
def digitsToNat (s : List Char) : Nat :=
  s.foldl (fun a c => 10 * a + digitVal c) 0

/-- JS String.prototype.padStart(3, a zero): left-pad to length 3. -/
def padStart3 (s : String) : String :=
  if s.length ≥ 3 then s
  else ⟨List.replicate (3 - s.length) '0' ++ s.data⟩

/-! ## JavaScript numbers with NaN -/

/-- A JS number restricted to the values this pipeline produces:
some q is an exact decimal, none is NaN. -/
abbrev JsNum : Type := Option ℚ

def JsNum.nan : JsNum := none

/-- Math.min: NaN-propagating minimum. -/
def jsMin : JsNum → JsNum → JsNum
  | some a, some b => some (min a b)
  | _, _ => none

/-- Math.max: NaN-propagating maximum. -/
def jsMax : JsNum → JsNum → JsNum
  | some a, some b => some (max a b)
  | _, _ => none

/-- Comparison x >= q: false when x is NaN, as in JS. -/
def jsGe (x : JsNum) (q : ℚ) : Bool :=
  match x with
  | some a => q ≤ a
  | none => false

/-- Comparison x <= q: false when x is NaN, as in JS. -/
def jsLe (x : JsNum) (q : ℚ) : Bool :=
  match x with
  | some a => a ≤ q
  | none => false

/-- parseFloat applied to a token matched by the digits-or-dots
character class: an optional integer part, an optional dot and
fraction; NaN when no digit is consumed (e.g. a lone dot). -/
def parseFloatQ (s : List Char) : JsNum :=
  let intPart := s.takeWhile fun c => c.isDigit
  let rest := s.drop intPart.length
  match rest with
  | '.' :: rest2 =>
    let frac := rest2.takeWhile fun c => c.isDigit
    if intPart.isEmpty && frac.isEmpty then none
    else some ((digitsToNat intPart : ℚ) + (digitsToNat frac : ℚ) / (10 : ℚ) ^ frac.length)
  | _ =>
    if intPart.isEmpty then none else some (digitsToNat intPart : ℚ)

/-! ## Classifier: free-text response parsing (classifier.js) -/

/-- Letters and underscore: the character class of the category pattern
under the case-insensitive flag. -/
def isWordChar (c : Char) : Bool :=
  c.isAlpha || c = '_'

/-- Consume tok case-insensitively (ASCII) from the head of s, returning
the remainder. -/
def dropTokenCI : List Char → List Char → Option (List Char)
  | [], s => some s
  | _ :: _, [] => none
  | t :: ts, c :: cs => if t.toLower = c.toLower then dropTokenCI ts cs else none

/-- Consume tok case-sensitively from the head of s, returning the
remainder. -/
def dropTokenCS : List Char → List Char → Option (List Char)
  | [], s => some s
  | _ :: _, [] => none
  | t :: ts, c :: cs => if t = c then dropTokenCS ts cs else none

def katTokL : List Char := "KATEGORI:".data
def reqTokL : List Char := "REQUESTER:".data
def confTokL : List Char := "CONFIDENCE:".data

/-- First-position scan of the category pattern: the label token
(case-insensitive), optional whitespace, then at least one word
character; the word characters are the capture.  When the tail after
the whitespace has no word character the engine moves to the next
start position, exactly like the backtracking-free JS regex here. -/
def katScanL : List Char → Option (List Char)
  | [] => none
  | c :: cs =>
    match dropTokenCI katTokL (c :: cs) with
    | some after =>
      let w := (after.dropWhile isWsChar).takeWhile isWordChar
      if w.isEmpty then katScanL cs else some w
    | none => katScanL cs

/-- The run the dot can match inside one line: everything up to a
carriage return (the only line terminator a newline-split line can
still contain). -/
def dotRun (s : List Char) : List Char :=
  s.takeWhile fun c => c ≠ '\r'

/-- Backtracking of the greedy whitespace star before the dot-plus
capture: try giving the capture the remainder after j consumed
whitespace characters, longest consumption first. -/
def reqBacktrack (r : List Char) : Nat → Option (List Char)
  | 0 =>
    let cand := dotRun r
    if cand.isEmpty then none else some cand
  | j + 1 =>
    let cand := dotRun (r.drop (j + 1))
    if cand.isEmpty then reqBacktrack r j else some cand

/-- First-position scan of the requester pattern (label token
case-insensitive, then whitespace star and a dot-plus capture). -/
def reqScanL : List Char → Option (List Char)
  | [] => none
  | c :: cs =>
    match dropTokenCI reqTokL (c :: cs) with
    | some after =>
      match reqBacktrack after (after.takeWhile isWsChar).length with
      | some cap => some cap
      | none => reqScanL cs
    | none => reqScanL cs

/-- First-position scan of the confidence pattern: label token
(case-sensitive, the only one of the three regexes without the
case-insensitive flag), whitespace, then at least one digit or dot. -/
def confScanL : List Char → Option (List Char)
  | [] => none
  | c :: cs =>
    match dropTokenCS confTokL (c :: cs) with
    | some after =>
      let w := (after.dropWhile isWsChar).takeWhile fun ch => ch.isDigit || ch = '.'
      if w.isEmpty then confScanL cs else some w
    | none => confScanL cs

/-- The mutable triple the parsing loop threads over the lines. -/
structure RawParsed where
  category : String
  requester : String
  confidence : JsNum
deriving DecidableEq

/-- The parser's starting values: fallback category, no requester,
floor confidence. -/
def defaultRaw : RawParsed := ⟨"OOPR", "N/A", some (1 / 10)⟩

def strToUpper (s : String) : String := ⟨s.data.map Char.toUpper⟩
def strToLower (s : String) : String := ⟨s.data.map Char.toLower⟩

/-- One iteration of the line loop of parseClassificationResponse:
three independent guarded extractions.  Each guard is the
case-sensitive String.prototype.includes test from the source; each
extraction is the corresponding regex match. -/
def scanLine (st : RawParsed) (line : String) : RawParsed :=
  let l := line.data
  let st1 :=
    if containsSubL katTokL l then
      match katScanL l with
      | some w => { st with category := strToUpper ⟨w⟩ }
      | none => st
    else st
  let st2 :=
    if containsSubL reqTokL l then
      match reqScanL l with
      | some cap => { st1 with requester := jsTrimStr ⟨cap⟩ }
      | none => st1
    else st1
  if containsSubL confTokL l then
    match confScanL l with
    | some w => { st2 with confidence := parseFloatQ w }
    | none => st2
  else st2

/-- The nine-entry category taxonomy of the classifier (code, label). -/
def categories : List (String × String) :=
  [("BA_HALO", "Kartu Halo"),
   ("BA_KKB", "Berita Kehilangan"),
   ("BASTB", "Serah Terima Barang"),
   ("CHR", "Checklist Reimbursement HP"),
   ("COF", "COF Scan"),
   ("LOF", "ICT Loan Form"),
   ("OOPR", "Out of Policy Request"),
   ("SRF", "SRF Scan"),
   ("DO", "Skip")]

def categoryCodes : List String := categories.map Prod.fst

def categoryDescriptions : List (String × String) :=
  [("BA_HALO", "Kartu Halo (SIM card related documents)"),
   ("BA_KKB", "Berita Kehilangan (Loss/missing item reports)"),
   ("BASTB", "Serah Terima Barang (Goods handover/delivery documents)"),
   ("CHR", "Checklist Reimbursement HP (Phone reimbursement checklists)"),
   ("COF", "COF Scan (Checkout Form documents)"),
   ("LOF", "ICT Loan Form (ICT equipment loan forms)"),
   ("OOPR", "Out of Policy Request (Exception/special requests)"),
   ("SRF", "SRF Scan (Service Request Forms)"),
   ("DO", "Skip (Delivery orders - mark as skip)")]

/-- The scan over all lines, starting from the parser defaults. -/
def scanLines (lines : List String) : RawParsed :=
  lines.foldl scanLine defaultRaw

/-- Post-parse validation of parseClassificationResponse: an unknown
category is replaced by the fallback code with the trust cap applied
to confidence, the requester is normalised, and finally confidence is
clamped into the unit-interval floor. -/
def postProcess (r : RawParsed) : RawParsed :=
  let cat := if (categories.lookup r.category).isSome then r.category else "OOPR"
  let conf0 :=
    if (categories.lookup r.category).isSome then r.confidence
    else jsMin r.confidence (some (3 / 10))
  let req :=
    if r.requester = "" || strToLower r.requester = "n/a" || jsTrimStr r.requester = ""
    then "N/A" else r.requester
  ⟨cat, req, jsMax (some (1 / 10)) (jsMin (some 1) conf0)⟩

/-- Splitting the trimmed reply on newlines, as the source does before
the line loop. -/
def splitTrimLines (r : String) : List String :=
  (splitNlL (jsTrimL r.data)).map fun l => ⟨l⟩

/-- parseClassificationResponse: a falsy reply (absent or empty) yields
the defaults; otherwise trim, split into lines, scan, validate,
clamp. -/
def parseClassificationResponse (response : Option String) : RawParsed :=
  match response with
  | none => defaultRaw
  | some r =>
    if r = "" then defaultRaw
    else postProcess (scanLines (splitTrimLines r))

/-! ## Classifier: prompt, single document, batch (classifier.js) -/

/-- The fixed prompt text up to the file name. -/
def basePromptA : String :=
  "Klasifikasikan dokumen bisnis Indonesia ini ke dalam salah satu kategori berikut dan ekstrak nama pemohon/requester jika tersedia:\n\nKATEGORI YANG TERSEDIA:\n1. BA_HALO - Kartu Halo (SIM card related documents)\n2. BA_KKB - Berita Kehilangan (Loss/missing item reports)\n3. BASTB - Serah Terima Barang (Goods handover/delivery documents)\n4. CHR - Checklist Reimbursement HP (Phone reimbursement checklists)\n5. COF - COF Scan (Checkout Form documents)\n6. LOF - ICT Loan Form (ICT equipment loan forms)\n7. OOPR - Out of Policy Request (Exception/special requests)\n8. SRF - SRF Scan (Service Request Forms)\n9. DO - Skip (Delivery orders - mark as skip)\n\nNAMA FILE: "

/-- The fixed prompt text after the file name. -/
def basePromptB : String :=
  "\n\nINSTRUKSI:\n- Analisis konten dokumen dengan teliti (baik teks maupun visual)\n- Pilih kategori yang paling sesuai berdasarkan isi dokumen\n- Ekstrak nama pemohon/requester dari dokumen (cari field seperti \"Nama\", \"Pemohon\", \"Requester\", \"Diajukan oleh\", \"Nama Karyawan\", dll.)\n- Berikan tingkat kepercayaan (0.1-1.0)\n- Jika tidak yakin atau tidak cocok dengan kategori manapun, pilih OOPR\n- Jika nama pemohon tidak ditemukan, tulis \"N/A\"\n\nRESPONS DALAM FORMAT:\nKATEGORI: [KODE_KATEGORI]\nREQUESTER: [NAMA_PEMOHON atau N/A]\nCONFIDENCE: [0.1-1.0]\n\nContoh:\nKATEGORI: COF\nREQUESTER: John Doe\nCONFIDENCE: 0.85\n\nAtau jika nama tidak ditemukan:\nKATEGORI: SRF\nREQUESTER: N/A\nCONFIDENCE: 0.92"

/-- buildClassificationPrompt: the fixed taxonomy/instruction template
with the file name spliced in; when text is supplied it is appended,
truncated to the first 2000 characters with a continuation marker. -/
def buildClassificationPrompt (text filename : String) : String :=
  let base := basePromptA ++ filename ++ basePromptB
  if text ≠ "" && jsTrimStr text ≠ "" then
    base ++ "\n\nTEKS DOKUMEN:\n" ++ text.take 2000 ++
      (if text.length > 2000 then "..." else "")
  else base

/-- A classification result as classifier.js builds it.  The error and
categoryDescription fields are absent (undefined) on some paths, hence
Option. -/
structure CResult where
  success : Bool
  category : String
  categoryName : String
  requester : String
  confidence : JsNum
  filename : String
  error : Option String
  categoryDescription : Option String
deriving DecidableEq

/-- The failure-path result shared by the catch blocks of
classifyDocument and of the batch loops. -/
def failShape (filename msg : String) : CResult :=
  { success := false
    category := "OOPR"
    categoryName := "Out of Policy Request"
    requester := "N/A"
    confidence := some (1 / 10)
    filename := filename
    error := some msg
    categoryDescription := none }

/-- The external model collaborator: maps a prompt to a reply (ok) or a
thrown transport error's message (error). -/
structure ModelEnv where
  call : String → Except String String

/-- classifyDocument: reject blank text, build the prompt, invoke the
model, parse the reply and decorate; every exception inside is caught
and converted to the failure shape. -/
def classifyDocument (env : ModelEnv) (text filename : String) : CResult :=
  if text = "" || jsTrimStr text = "" then
    failShape filename "No text provided for classification"
  else
    match env.call (buildClassificationPrompt text filename) with
    | .error e => failShape filename e
    | .ok reply =>
      let p := parseClassificationResponse (some reply)
      { success := true
        category := p.category
        categoryName := (categories.lookup p.category).getD "Unknown"
        requester := p.requester
        confidence := p.confidence
        filename := filename
        error := none
        categoryDescription := some ((categoryDescriptions.lookup p.category).getD "Unknown category") }

/-- One input of the text batch loop. -/
structure Doc where
  text : String
  filename : String
deriving DecidableEq

/-- classifyBatch's sequential loop: per document, classify, push the
result, then sleep the fixed inter-item delay.  The second component
counts how many times the delay is awaited (classifyDocument catches
all of its own failures, so the loop's catch never skips a push).
classifyBatchFromBuffers and classifyBatchFromPDF have the identical
loop shape with a longer pause. -/
def classifyBatchRun (env : ModelEnv) (docs : List Doc) : List CResult × Nat :=
  docs.foldl
    (fun acc d => (acc.1 ++ [classifyDocument env d.text d.filename], acc.2 + 1))
    ([], 0)

def classifyBatch (env : ModelEnv) (docs : List Doc) : List CResult :=
  (classifyBatchRun env docs).1

/-! ## File organizer (FileOrganizer in pdfParser.js) -/

/-- Category code to folder name. -/
def folderMapping : List (String × String) := categories

/-- Category code to filename prefix for the numbered names. -/
def categoryPrefixes : List (String × String) :=
  [("BA_HALO", "ICTBAK"),
   ("BA_KKB", "ICTBKK"),
   ("BASTB", "ICTSTB"),
   ("CHR", "ICTCRH"),
   ("COF", "ICTCOF"),
   ("LOF", "ICTLOA"),
   ("OOPR", "ICTOOP"),
   ("SRF", "ICTSRF"),
   ("DO", "ICTSKP")]

/-- path.join for the separator-free directory/name components this
pipeline produces. -/
def pathJoin (dir name : String) : String :=
  dir ++ "/" ++ name

/-- Index of the last dot of a (slash-free) name, scanning with the
running index i. -/
def lastDotAux : List Char → Nat → Option Nat
  | [], _ => none
  | c :: cs, i =>
    match lastDotAux cs (i + 1) with
    | some j => some j
    | none => if c = '.' then some i else none

/-- path.extname on a slash-free name: from the last dot on, except
when the dot is the leading character. -/
def extname (s : String) : String :=
  match lastDotAux s.data 0 with
  | none => ""
  | some 0 => ""
  | some i => ⟨s.data.drop i⟩

/-- path.basename(name, ext) on a slash-free name: strip ext when it is
a nonempty proper suffix. -/
def basenameStrip (s ext : String) : String :=
  if ext ≠ "" && ext ≠ s && ext.data.length ≤ s.data.length &&
     decide (s.data.drop (s.data.length - ext.data.length) = ext.data) then
    ⟨s.data.take (s.data.length - ext.data.length)⟩
  else s

/-- The k-th duplicate-suffixed candidate path for a colliding
filename: base, underscore, counter, extension. -/
def dupCandidate (targetDir filename : String) (k : Nat) : String :=
  let ext := extname filename
  let base := basenameStrip filename ext
  pathJoin targetDir (base ++ "_" ++ natToString k ++ ext)

/-- The collision loop of generateTargetPathWithCustomName: bump the
suffix while the candidate exists.  The fuel argument only serves
structural termination; the caller passes one more than the number of
existing paths, which always suffices because distinct suffixes give
distinct candidates, so the loop can collide at most (length fs)
times. -/
def genLoop (fs : List String) (targetDir filename : String) : Nat → Nat → String
  | 0, k => dupCandidate targetDir filename k
  | fuel + 1, k =>
    let cand := dupCandidate targetDir filename k
    if cand ∈ fs then genLoop fs targetDir filename fuel (k + 1)
    else cand

/-- generateTargetPathWithCustomName (the second, effective definition
in the class; the earlier "_dup" variant is shadowed by it): start at
the plain joined path, then append _1, _2, ... before the extension
until the path is free.  fs is the list of existing paths. -/
def generateTargetPathWithCustomName (fs : List String) (targetDir filename : String) : String :=
  let first := pathJoin targetDir filename
  if first ∈ fs then genLoop fs targetDir filename (fs.length + 1) 1
  else first

/-- One successfully organized entry. -/
structure OrgEntry where
  originalName : String
  newName : String
  category : String
  categoryName : String
  confidence : JsNum
  requester : String
  sourcePath : String
  targetPath : String
  targetFolder : String
  documentNumber : String
deriving DecidableEq

/-- One failed entry. -/
structure FailEntry where
  filename : String
  error : String
  category : String
deriving DecidableEq

/-- The state threaded through the organization loop: the file system,
the per-category counters, and the two output lists. -/
structure OrgState where
  fs : List String
  counters : String → Nat
  organized : List OrgEntry
  failed : List FailEntry

/-- Pointwise function update for the counters map. -/
def updateFn (f : String → Nat) (k : String) (v : Nat) : String → Nat :=
  fun x => if x = k then v else f x

/-- Counter start per category: the caller-supplied override unless it
is falsy (absent or zero), in which case the default 1. -/
def initCounters (cfg : String → Option Nat) : String → Nat :=
  fun c =>
    match cfg c with
    | some v => if v = 0 then 1 else v
    | none => 1

def pushFailed (st : OrgState) (r : CResult) (msg : String) : OrgState :=
  { st with failed := st.failed ++ [⟨r.filename, msg, r.category⟩] }

/-- Index of the last slash of a path. -/
def lastSlashAux : List Char → Nat → Option Nat
  | [], _ => none
  | c :: cs, i =>
    match lastSlashAux cs (i + 1) with
    | some j => some j
    | none => if c = '/' then some i else none

/-- path.basename: the component after the last slash. -/
def basenameOf (s : String) : String :=
  match lastSlashAux s.data 0 with
  | none => s
  | some i => ⟨s.data.drop (i + 1)⟩

/-- The custom filename computed for a successful result at the given
counter value: prefix, padded counter, separator, requester (or
Unknown), original extension. -/
def newFilenameFor (counter : Nat) (r : CResult) : String :=
  let pfx := (categoryPrefixes.lookup r.category).getD "ICTUNK"
  let requesterName := if r.requester ≠ "" && r.requester ≠ "N/A" then r.requester else "Unknown"
  pfx ++ padStart3 (natToString counter) ++ " - " ++ requesterName ++ extname r.filename

/-- The organized-entry record pushed after a successful copy. -/
def orgEntryFor (r : CResult) (counter : Nat)
    (sourceFile targetFile folderName : String) : OrgEntry :=
  { originalName := r.filename
    newName := basenameOf targetFile
    category := r.category
    categoryName := r.categoryName
    confidence := r.confidence
    requester := r.requester
    sourcePath := sourceFile
    targetPath := targetFile
    targetFolder := folderName
    documentNumber := padStart3 (natToString counter) }

/-- The state after a successful copy: the new file exists, the
category counter advances by one, the entry is appended. -/
def placeSuccess (st : OrgState) (r : CResult) (counter : Nat)
    (sourceFile targetFile folderName : String) : OrgState :=
  { fs := targetFile :: st.fs
    counters := updateFn st.counters r.category (counter + 1)
    organized := st.organized ++ [orgEntryFor r counter sourceFile targetFile folderName]
    failed := st.failed }

/-- One iteration of the organizeFilesWithNumbering loop.  copyOk is
the oracle for fs.copyFileSync: false means the copy threw, which the
per-file catch turns into a failed entry.  The guards appear in source
order: classification success, known category, source existence. -/
def organizeStep (sourceDir outputDir : String) (copyOk : String → String → Bool)
    (st : OrgState) (r : CResult) : OrgState :=
  if r.success = false then
    pushFailed st r (r.error.getD "Classification failed")
  else
    match folderMapping.lookup r.category with
    | none => pushFailed st r ("Unknown category: " ++ r.category)
    | some folderName =>
      let sourceFile := pathJoin sourceDir r.filename
      if sourceFile ∈ st.fs then
        let counter := st.counters r.category
        let targetFile := generateTargetPathWithCustomName st.fs
          (pathJoin outputDir folderName) (newFilenameFor counter r)
        if copyOk sourceFile targetFile then
          placeSuccess st r counter sourceFile targetFile folderName
        else
          pushFailed st r "copy failed"
      else
        pushFailed st r "Source file not found"

/-- organizeFilesWithNumbering's loop over the classification results,
after the (assumed successful) folder-structure creation; fs0 is the
set of paths existing when the run starts. -/
def organizeFilesWithNumbering (fs0 : List String)
    (cfg : String → Option Nat) (copyOk : String → String → Bool)
    (results : List CResult) (sourceDir outputDir : String) : OrgState :=
  results.foldl (organizeStep sourceDir outputDir copyOk)
    { fs := fs0, counters := initCounters cfg, organized := [], failed := [] }

/-- The aggregate summary generateSummary computes after the loop. -/
structure OrgSummary where
  total : Nat
  successful : Nat
  failedCount : Nat
  successRate : ℚ
  high : Nat
  medium : Nat
  low : Nat
deriving DecidableEq

/-- generateSummary without the category-name histogram: totals, rate,
and the confidence bands (a NaN confidence compares false on both band
tests and lands in low, as in JS). -/
def generateSummary (organized : List OrgEntry) (failed : List FailEntry) : OrgSummary :=
  let total := organized.length + failed.length
  { total := total
    successful := organized.length
    failedCount := failed.length
    successRate := if total > 0 then (organized.length : ℚ) / (total : ℚ) * 100 else 0
    high := (organized.filter fun e => jsGe e.confidence (8 / 10)).length
    medium := (organized.filter fun e =>
      !jsGe e.confidence (8 / 10) && jsGe e.confidence (5 / 10)).length
    low := (organized.filter fun e =>
      !jsGe e.confidence (8 / 10) && !jsGe e.confidence (5 / 10)).length }

/-! ## Text acquisition chain -/

/-- Modelled from the spec: the text acquisition chain (section 4.1,
acquireText) with its direct-extraction step and the method-selected
OCR fallback is not present under src/lib/pdfParser.js (the PDFParser
class there only performs the direct pdf-parse step); its callers in
server.js (the ocrMethod parameter and the tesseract / openai /
ocr-failed method values they handle), the README's multi-engine OCR
description and the Dockerfile's tesseract installation reference the
missing implementation.  The environment supplies the two external
collaborators: the direct structural extractor and, per method name,
the chosen OCR strategy; error means the collaborator threw. -/
structure AcquireEnv where
  directResult : Except String String
  ocrResult : String → Except String String

/-- Modelled from the spec: the result shape of acquireText. -/
structure AcquireResult where
  success : Bool
  text : String
  extractionMethod : String
  errorMsg : Option String
deriving DecidableEq

/-- Modelled from the spec: the combined failure message referencing
both the direct-extraction failure and the OCR failure. -/
def combinedAcqError (directErr ocrErr : String) : String :=
  "Text extraction failed: " ++ directErr ++ "; OCR fallback failed: " ++ ocrErr

/-- Modelled from the spec: dispatch to exactly one OCR strategy chosen
by the method parameter, after the direct step failed with the given
reason. -/
def runOcrFallback (env : AcquireEnv) (method : String) (directErr : String) : AcquireResult :=
  match env.ocrResult method with
  | .ok t => { success := true, text := t, extractionMethod := method, errorMsg := none }
  | .error oe =>
    { success := false, text := "", extractionMethod := method ++ "-failed"
      errorMsg := some (combinedAcqError directErr oe) }

/-- Modelled from the spec: acquireText's step 1 attempts the direct
structural extraction and returns immediately on nonempty trimmed
text; only on empty text or a thrown extraction error does step 2
dispatch to the chosen OCR strategy. -/
def acquireText (env : AcquireEnv) (method : String) : AcquireResult :=
  match env.directResult with
  | .ok t =>
    if jsTrimStr t ≠ "" then
      { success := true, text := t, extractionMethod := "direct", errorMsg := none }
    else runOcrFallback env method "empty text from direct extraction"
  | .error e => runOcrFallback env method e

/-! ## Helper lemmas: decimal rendering is injective -/

lemma digitVal_digitChar {d : Nat} (h : d < 10) : digitVal (digitChar d) = d := by
  interval_cases d <;> rfl

lemma digitsToNat_append_singleton (xs : List Char) (c : Char) :
    digitsToNat (xs ++ [c]) = 10 * digitsToNat xs + digitVal c := by
  simp [digitsToNat, List.foldl_append]

lemma digitsToNat_natDigitsAux : ∀ {fuel n : Nat}, n < fuel →
    digitsToNat (natDigitsAux fuel n) = n := by
  intro fuel
  induction fuel with
  | zero => intro n h; omega
  | succ fuel ih =>
    intro n h
    rw [natDigitsAux]
    by_cases h10 : n < 10
    · simp only [h10, if_true]
      simpa [digitsToNat] using digitVal_digitChar h10
    · simp only [h10, if_false]
      rw [digitsToNat_append_singleton, ih (by omega),
        digitVal_digitChar (Nat.mod_lt n (by omega))]
      omega

lemma natToString_inj {m n : Nat} (h : natToString m = natToString n) : m = n := by
  have hd : natDigitsAux (m + 1) m = natDigitsAux (n + 1) n := by
    injection h
  have hm : digitsToNat (natDigitsAux (m + 1) m) = m :=
    digitsToNat_natDigitsAux (by omega)
  have hn : digitsToNat (natDigitsAux (n + 1) n) = n :=
    digitsToNat_natDigitsAux (by omega)
  rw [hd, hn] at hm
  omega

lemma append_right_cancel_chars {x y e : List Char} (h : x ++ e = y ++ e) : x = y := by
  have hl : x.length = y.length := by
    have hlen := congrArg List.length h
    simp only [List.length_append] at hlen
    omega
  exact (List.append_inj h hl).1

lemma dupCandidate_inj {targetDir filename : String} {j k : Nat}
    (h : dupCandidate targetDir filename j = dupCandidate targetDir filename k) : j = k := by
  apply natToString_inj
  apply String.ext
  simp only [dupCandidate, pathJoin, String.data_append, List.append_assoc] at h
  have hdata := congrArg String.data h
  simp only [String.data_append, List.append_assoc] at hdata
  have h1 := List.append_cancel_left hdata
  have h2 := List.append_cancel_left h1
  have h3 := List.append_cancel_left h2
  have h4 := List.append_cancel_left h3
  exact append_right_cancel_chars h4

/-! ## Helper lemmas: the duplicate-suffix loop -/

lemma genLoop_mem_all {fs : List String} {td fn : String} :
    ∀ fuel k, genLoop fs td fn fuel k ∈ fs →
      ∀ j ≤ fuel, dupCandidate td fn (k + j) ∈ fs := by
  intro fuel
  induction fuel with
  | zero =>
    intro k h j hj
    have hj0 : j = 0 := by omega
    subst hj0
    simpa [genLoop] using h
  | succ fuel ih =>
    intro k h j hj
    rw [genLoop] at h
    by_cases hc : dupCandidate td fn k ∈ fs
    · simp only [hc, if_true] at h
      match j with
      | 0 => simpa using hc
      | j' + 1 =>
        have := ih (k + 1) h j' (by omega)
        have harith : k + 1 + j' = k + (j' + 1) := by omega
        rwa [harith] at this
    · simp only [hc, if_false] at h

lemma genLoop_first_free {fs : List String} {td fn : String} :
    ∀ fuel k, genLoop fs td fn fuel k ∉ fs →
      ∃ j, j ≤ fuel ∧ genLoop fs td fn fuel k = dupCandidate td fn (k + j) ∧
        ∀ i < j, dupCandidate td fn (k + i) ∈ fs := by
  intro fuel
  induction fuel with
  | zero =>
    intro k _
    exact ⟨0, by omega, by simp [genLoop], by omega⟩
  | succ fuel ih =>
    intro k h
    rw [genLoop] at h ⊢
    by_cases hc : dupCandidate td fn k ∈ fs
    · simp only [hc, if_true] at h ⊢
      obtain ⟨j', hle, heq, hall⟩ := ih (k + 1) h
      refine ⟨j' + 1, by omega, by rwa [show k + (j' + 1) = k + 1 + j' by omega], ?_⟩
      intro i hi
      match i with
      | 0 => simpa using hc
      | i' + 1 =>
        have := hall i' (by omega)
        rwa [show k + 1 + i' = k + (i' + 1) by omega] at this
    · simp only [hc, if_false]
      exact ⟨0, by omega, rfl, by omega⟩

lemma genTarget_not_mem (fs : List String) (td fn : String) :
    generateTargetPathWithCustomName fs td fn ∉ fs := by
  unfold generateTargetPathWithCustomName
  by_cases h0 : pathJoin td fn ∈ fs
  · simp only [h0, if_true]
    intro hmem
    have hall := genLoop_mem_all (fs.length + 1) 1 hmem
    have hnd : ((List.range (fs.length + 2)).map
        (fun j => dupCandidate td fn (1 + j))).Nodup := by
      refine List.Nodup.map ?_ (List.nodup_range _)
      intro a b hab
      have := dupCandidate_inj hab
      omega
    have hsub : ((List.range (fs.length + 2)).map
        (fun j => dupCandidate td fn (1 + j))) ⊆ fs := by
      intro x hx
      simp only [List.mem_map, List.mem_range] at hx
      obtain ⟨j, hj, rfl⟩ := hx
      exact hall j (by omega)
    have hlen := (hnd.subperm hsub).length_le
    simp only [List.length_map, List.length_range] at hlen
    omega
  · simp [h0]

lemma genTarget_first_slot {fs : List String} {td fn : String}
    (h : pathJoin td fn ∈ fs) :
    ∃ k, 1 ≤ k ∧ generateTargetPathWithCustomName fs td fn = dupCandidate td fn k ∧
      dupCandidate td fn k ∉ fs ∧
      ∀ j, 1 ≤ j → j < k → dupCandidate td fn j ∈ fs := by
  have hnot := genTarget_not_mem fs td fn
  unfold generateTargetPathWithCustomName at hnot ⊢
  simp only [h, if_true] at hnot ⊢
  obtain ⟨j, _, heq, hall⟩ := genLoop_first_free (fs.length + 1) 1 hnot
  refine ⟨1 + j, by omega, heq, by rwa [heq] at hnot, ?_⟩
  intro i h1 hi
  have := hall (i - 1) (by omega)
  rwa [show 1 + (i - 1) = i by omega] at this

/-! ## Helper lemmas: the organization loop -/

@[simp] lemma pushFailed_fs (st : OrgState) (r : CResult) (m : String) :
    (pushFailed st r m).fs = st.fs := rfl

@[simp] lemma pushFailed_counters (st : OrgState) (r : CResult) (m : String) :
    (pushFailed st r m).counters = st.counters := rfl

@[simp] lemma pushFailed_organized (st : OrgState) (r : CResult) (m : String) :
    (pushFailed st r m).organized = st.organized := rfl

@[simp] lemma placeSuccess_fs (st : OrgState) (r : CResult) (n : Nat) (sf tf fn : String) :
    (placeSuccess st r n sf tf fn).fs = tf :: st.fs := rfl

@[simp] lemma placeSuccess_counters (st : OrgState) (r : CResult) (n : Nat) (sf tf fn : String) :
    (placeSuccess st r n sf tf fn).counters = updateFn st.counters r.category (n + 1) := rfl

@[simp] lemma placeSuccess_organized (st : OrgState) (r : CResult) (n : Nat) (sf tf fn : String) :
    (placeSuccess st r n sf tf fn).organized =
      st.organized ++ [orgEntryFor r n sf tf fn] := rfl

/-- Every iteration of the organization loop either records a failure,
leaving the file system, the counters and the organized list
untouched, or places the file: the target is the resolved fresh path,
the entry is appended and only that category's counter advances. -/
lemma organizeStep_shape (sd od : String) (ck : String → String → Bool)
    (st : OrgState) (r : CResult) :
    (∃ msg, organizeStep sd od ck st r = pushFailed st r msg) ∨
    (∃ folderName tf,
      folderMapping.lookup r.category = some folderName ∧
      tf = generateTargetPathWithCustomName st.fs (pathJoin od folderName)
        (newFilenameFor (st.counters r.category) r) ∧
      tf ∉ st.fs ∧
      organizeStep sd od ck st r =
        placeSuccess st r (st.counters r.category) (pathJoin sd r.filename) tf folderName) := by
  unfold organizeStep
  by_cases hs : r.success = false
  · exact Or.inl ⟨r.error.getD "Classification failed", by simp [hs]⟩
  · rcases hlk : folderMapping.lookup r.category with _ | folderName
    · exact Or.inl ⟨"Unknown category: " ++ r.category, by simp [hs]⟩
    · by_cases hsrc : pathJoin sd r.filename ∈ st.fs
      · by_cases hcp : ck (pathJoin sd r.filename)
          (generateTargetPathWithCustomName st.fs (pathJoin od folderName)
            (newFilenameFor (st.counters r.category) r)) = true
        · refine Or.inr ⟨folderName, _, rfl, rfl, genTarget_not_mem _ _ _, ?_⟩
          simp [hs, hsrc, hcp]
        · exact Or.inl ⟨"copy failed", by simp [hs, hsrc, hcp]⟩
      · exact Or.inl ⟨"Source file not found", by simp [hs, hsrc]⟩

/-- Splitting the consecutive padded range at its first element. -/
lemma pad_range_shift (cnt k : Nat) :
    (List.range (k + 1)).map (fun i => padStart3 (natToString (cnt + i))) =
      padStart3 (natToString cnt) ::
        (List.range k).map (fun i => padStart3 (natToString (cnt + 1 + i))) := by
  rw [List.range_succ_eq_map]
  simp only [List.map_cons, Nat.add_zero, List.map_map]
  congr 1
  apply List.map_congr_left
  intro i _
  have harith : cnt + (i + 1) = cnt + 1 + i := by omega
  simp [Function.comp, harith]

lemma updateFn_same (f : String → Nat) (k : String) (v : Nat) :
    updateFn f k v k = v := by simp [updateFn]

lemma updateFn_other (f : String → Nat) (k c : String) (v : Nat) (h : ¬k = c) :
    updateFn f k v c = f c := by
  simp only [updateFn]
  rw [if_neg (fun hh => h hh.symm)]

/-- The numbering invariant of one organization run: starting from any
state, the new organized entries of category c carry exactly the
consecutive padded numbers from the incoming counter value, and the
counter advances by their count. -/
lemma org_loop_numbering (sd od : String) (ck : String → String → Bool) (c : String) :
    ∀ (results : List CResult) (st : OrgState),
      ∃ k,
        (results.foldl (organizeStep sd od ck) st).counters c = st.counters c + k ∧
        ((results.foldl (organizeStep sd od ck) st).organized.filter
            (fun e => e.category = c)).map (fun e => e.documentNumber) =
          (st.organized.filter (fun e => e.category = c)).map (fun e => e.documentNumber) ++
            (List.range k).map (fun i => padStart3 (natToString (st.counters c + i))) := by
  intro results
  induction results with
  | nil => intro st; exact ⟨0, by simp, by simp⟩
  | cons r rs ih =>
    intro st
    rw [List.foldl_cons]
    rcases organizeStep_shape sd od ck st r with ⟨msg, hstep⟩ | ⟨fn, tf, _, _, _, hstep⟩
    · rw [hstep]
      obtain ⟨k, hcnt, hmap⟩ := ih (pushFailed st r msg)
      exact ⟨k, by simpa using hcnt, by simpa using hmap⟩
    · rw [hstep]
      obtain ⟨k, hcnt, hmap⟩ := ih (placeSuccess st r (st.counters r.category)
        (pathJoin sd r.filename) tf fn)
      by_cases hcat : r.category = c
      · subst hcat
        refine ⟨k + 1, ?_, ?_⟩
        · rw [hcnt, placeSuccess_counters, updateFn_same]
          omega
        · rw [hmap]
          simp only [placeSuccess_organized, placeSuccess_counters,
            List.filter_append, List.map_append, updateFn_same]
          have hent : (List.filter (fun e => decide (e.category = r.category))
              [orgEntryFor r (st.counters r.category) (pathJoin sd r.filename) tf fn]) =
              [orgEntryFor r (st.counters r.category) (pathJoin sd r.filename) tf fn] := by
            simp [orgEntryFor]
          rw [hent, pad_range_shift]
          simp [orgEntryFor]
      · refine ⟨k, ?_, ?_⟩
        · rw [hcnt, placeSuccess_counters, updateFn_other _ _ _ _ hcat]
        · rw [hmap]
          simp only [placeSuccess_organized, placeSuccess_counters,
            List.filter_append, List.map_append, updateFn_other _ _ _ _ hcat]
          have hent : (List.filter (fun e => decide (e.category = c))
              [orgEntryFor r (st.counters r.category) (pathJoin sd r.filename) tf fn]) = [] := by
            simp [orgEntryFor, hcat]
          rw [hent]
          simp

/-- The safety invariant of the organization loop used for
duplicate-name resolution: every organized entry's target exists on
disk, the recorded targets are pairwise distinct, the initial files
persist, and no recorded target is one of the initially existing
paths. -/
def OrgDistinctInv (fs0 : List String) (st : OrgState) : Prop :=
  (∀ e ∈ st.organized, e.targetPath ∈ st.fs) ∧
  (st.organized.map fun e => e.targetPath).Nodup ∧
  fs0 ⊆ st.fs ∧
  (∀ e ∈ st.organized, e.targetPath ∉ fs0)

lemma org_loop_distinct (sd od : String) (ck : String → String → Bool) (fs0 : List String) :
    ∀ (results : List CResult) (st : OrgState), OrgDistinctInv fs0 st →
      OrgDistinctInv fs0 (results.foldl (organizeStep sd od ck) st) := by
  intro results
  induction results with
  | nil => intro st h; exact h
  | cons r rs ih =>
    intro st h
    rw [List.foldl_cons]
    rcases organizeStep_shape sd od ck st r with ⟨msg, hstep⟩ | ⟨fn, tf, _, _, hnm, hstep⟩
    · rw [hstep]
      exact ih _ h
    · rw [hstep]
      apply ih
      obtain ⟨h1, h2, h3, h4⟩ := h
      refine ⟨?_, ?_, ?_, ?_⟩
      · intro e he
        rw [placeSuccess_organized, List.mem_append] at he
        rcases he with he | he
        · exact List.mem_cons_of_mem _ (h1 e he)
        · simp only [List.mem_singleton] at he
          subst he
          exact List.mem_cons_self _ _
      · rw [placeSuccess_organized, List.map_append, List.nodup_append]
        refine ⟨h2, by simp [orgEntryFor], ?_⟩
        intro x hx hx'
        simp only [List.map_singleton, List.mem_singleton, orgEntryFor] at hx'
        subst hx'
        obtain ⟨e, he, hetp⟩ := List.mem_map.mp hx
        exact hnm (hetp ▸ h1 e he)
      · exact fun x hx => List.mem_cons_of_mem _ (h3 hx)
      · intro e he
        rw [placeSuccess_organized, List.mem_append] at he
        rcases he with he | he
        · exact h4 e he
        · simp only [List.mem_singleton] at he
          subst he
          exact fun hin => hnm (h3 hin)

/-! ## Helper lemmas: the batch loop -/

lemma classifyBatchRun_aux (env : ModelEnv) :
    ∀ (docs : List Doc) (acc : List CResult × Nat),
      docs.foldl
        (fun acc d => (acc.1 ++ [classifyDocument env d.text d.filename], acc.2 + 1)) acc =
      (acc.1 ++ docs.map (fun d => classifyDocument env d.text d.filename),
        acc.2 + docs.length) := by
  intro docs
  induction docs with
  | nil => intro acc; simp
  | cons d ds ih =>
    intro acc
    rw [List.foldl_cons, ih]
    simp only [List.map_cons, List.length_cons, Prod.mk.injEq]
    constructor
    · simp
    · omega

/-! ## Supporting facts about the parsed-result invariant -/

lemma mem_keys_of_lookup_isSome {β : Type} {l : List (String × β)} {c : String}
    (h : (l.lookup c).isSome) : c ∈ l.map Prod.fst := by
  induction l with
  | nil => simp [List.lookup] at h
  | cons p t ih =>
    obtain ⟨k, v⟩ := p
    by_cases hk : c = k
    · simp [hk]
    · rw [List.lookup] at h
      have hbeq : (c == k) = false := by
        simp [hk]
      rw [hbeq] at h
      simp only [List.map_cons, List.mem_cons]
      exact Or.inr (ih h)

/-- The category half of the result invariant does hold: every parsed
result's category is one of the nine taxonomy codes, because the
validation step substitutes the fallback code for anything
unrecognised. -/
lemma parse_category_always_valid (response : Option String) :
    (parseClassificationResponse response).category ∈ categoryCodes := by
  have hpost : ∀ r : RawParsed, (postProcess r).category ∈ categoryCodes := by
    intro r
    show (if (categories.lookup r.category).isSome = true then r.category else "OOPR") ∈
      categoryCodes
    by_cases h : (categories.lookup r.category).isSome = true
    · rw [if_pos h]
      exact mem_keys_of_lookup_isSome h
    · rw [if_neg h]
      decide
  rcases response with _ | s
  · simp [parseClassificationResponse, defaultRaw, categoryCodes, categories]
  · by_cases hs : s = ""
    · simp [parseClassificationResponse, hs, defaultRaw, categoryCodes, categories]
    · have : parseClassificationResponse (some s) =
          postProcess (scanLines (splitTrimLines s)) := by
        show (if s = "" then defaultRaw else postProcess (scanLines (splitTrimLines s))) = _
        rw [if_neg hs]
      rw [this]
      exact hpost _

/-- The confidence half of the result invariant holds exactly on the
numeric values: whenever the final confidence is a number at all, the
clamp keeps it inside [0.1, 1.0]; the only escape is NaN. -/
lemma parse_confidence_in_range_when_numeric (response : Option String) (q : ℚ)
    (h : (parseClassificationResponse response).confidence = some q) :
    1 / 10 ≤ q ∧ q ≤ 1 := by
  have hshape : (parseClassificationResponse response).confidence = some (1 / 10 : ℚ) ∨
      ∃ x : JsNum, (parseClassificationResponse response).confidence =
        jsMax (some (1 / 10)) (jsMin (some 1) x) := by
    rcases response with _ | s
    · exact Or.inl rfl
    · by_cases hs : s = ""
      · left
        show (if s = "" then defaultRaw else _).confidence = _
        rw [if_pos hs]
        rfl
      · right
        refine ⟨(if (categories.lookup (scanLines (splitTrimLines s)).category).isSome then
            (scanLines (splitTrimLines s)).confidence
          else jsMin (scanLines (splitTrimLines s)).confidence (some (3 / 10))), ?_⟩
        show (if s = "" then defaultRaw
          else postProcess (scanLines (splitTrimLines s))).confidence = _
        rw [if_neg hs]
        rfl
  rcases hshape with hc | ⟨x, hc⟩
  · rw [hc] at h
    have heq : (1 / 10 : ℚ) = q := by injection h
    rw [← heq]
    norm_num
  · rw [hc] at h
    rcases x with _ | a
    · exact Option.noConfusion h
    · simp only [jsMin, jsMax] at h
      have hq : max (1 / 10 : ℚ) (min 1 a) = q := by injection h
      rw [← hq]
      refine ⟨le_max_left _ _, max_le (by norm_num) (min_le_left _ _)⟩

/-! ## Claim theorems -/

/-- Claim C1: the spec asserts that every parsed ClassificationResult
has confidence in [0.1, 1.0].  The code violates this: for the reply
consisting of the confidence label followed by a lone dot, the
digits-or-dots capture is the dot alone, parseFloat returns NaN, and
NaN passes through the invalid-category cap and the final
Math.max/Math.min clamp unchanged (both return NaN on a NaN operand),
so the returned confidence is NaN, which lies in no interval.  The
category half of the invariant does hold; the confidence clamp is the
slip, contradicting the source's own comment that it ensures the valid
range. -/
theorem c1_nan_confidence_escapes_clamp :
    (parseClassificationResponse (some "CONFIDENCE: .")).confidence = JsNum.nan ∧
    ¬∃ q : ℚ, (parseClassificationResponse (some "CONFIDENCE: .")).confidence = some q ∧
      1 / 10 ≤ q ∧ q ≤ 1 := by
  have h : (parseClassificationResponse (some "CONFIDENCE: .")).confidence = JsNum.nan := by
    decide
  refine ⟨h, ?_⟩
  rintro ⟨q, hq, -, -⟩
  rw [h] at hq
  exact Option.noConfusion hq

/-- Claim C2: classifyBatch returns exactly one result per input
document, in input order (it literally equals the map of the
per-document classifier over the inputs, so no document is dropped and
no failure aborts the batch), and an exception thrown by the model
call while processing a document becomes the failure-shaped result
(success false, fallback category, confidence 0.1, the error message)
for that document alone. -/
theorem c2_batch_one_to_one (env : ModelEnv) (docs : List Doc) :
    classifyBatch env docs =
      docs.map (fun d => classifyDocument env d.text d.filename) ∧
    (classifyBatch env docs).length = docs.length ∧
    (∀ (d : Doc) (e : String), jsTrimStr d.text ≠ "" →
      env.call (buildClassificationPrompt d.text d.filename) = .error e →
      classifyDocument env d.text d.filename = failShape d.filename e) := by
  have h1 : classifyBatch env docs =
      docs.map (fun d => classifyDocument env d.text d.filename) := by
    unfold classifyBatch classifyBatchRun
    rw [classifyBatchRun_aux]
    simp
  refine ⟨h1, by rw [h1]; simp, ?_⟩
  intro d e htrim hcall
  have htext : ¬d.text = "" := fun hh => htrim (by rw [hh]; rfl)
  simp [classifyDocument, htext, htrim, hcall]

/-- Witness for C2 at a concrete batch whose model call throws. -/
theorem c2_batch_one_to_one_witness :
    classifyDocument ⟨fun _ => .error "network down"⟩ "isi dokumen" "a.pdf" =
      failShape "a.pdf" "network down" :=
  (c2_batch_one_to_one ⟨fun _ => .error "network down"⟩
    [⟨"isi dokumen", "a.pdf"⟩]).2.2 ⟨"isi dokumen", "a.pdf"⟩ "network down"
    (by decide) rfl

/-- Claim C9 counterexample: the delay is not skipped after the last
item.  For a batch of one document the loop performs one delay, while
the claim predicts N - 1 = 0 delays. -/
theorem c9_counterexample :
    (classifyBatchRun ⟨fun _ => .ok "KATEGORI: COF\nREQUESTER: Budi\nCONFIDENCE: 0.9"⟩
        [⟨"halo dokumen", "doc1.pdf"⟩]).2 ≠
      ([⟨"halo dokumen", "doc1.pdf"⟩] : List Doc).length - 1 := by
  decide

/-- Claim C9 amended: the fixed inter-item delay is awaited after
every processed item, including the last, so a batch of N documents
performs exactly N delays (the source sleeps inside the loop body
after pushing each result, with no last-item exception). -/
theorem c9_delay_after_every_item (env : ModelEnv) (docs : List Doc) :
    (classifyBatchRun env docs).2 = docs.length := by
  unfold classifyBatchRun
  rw [classifyBatchRun_aux]
  simp

/-- Claim C3 counterexample: for the reply whose category XYZ is
outside the taxonomy and whose confidence token is a lone dot, the
category is replaced by the fallback code but the final confidence is
NaN, not a value at most 0.3 (in JS even the comparison NaN <= 0.3 is
false), so the claim's unconditional cap fails. -/
theorem c3_counterexample :
    (scanLines (splitTrimLines "KATEGORI: XYZ\nCONFIDENCE: .")).category = "XYZ" ∧
    (categories.lookup "XYZ").isSome = false ∧
    (parseClassificationResponse (some "KATEGORI: XYZ\nCONFIDENCE: .")).category = "OOPR" ∧
    (parseClassificationResponse (some "KATEGORI: XYZ\nCONFIDENCE: .")).confidence = JsNum.nan ∧
    jsLe (parseClassificationResponse (some "KATEGORI: XYZ\nCONFIDENCE: .")).confidence (3 / 10)
      = false := by
  decide

/-- Claim C3 amended: for every model reply whose parsed category code
is not in the taxonomy, the category is replaced by the fallback code
OOPR and the cap of 0.3 is applied by Math.min to the parsed
confidence after parsing and before the final clamp; whenever the
resulting confidence is a number at all it is at most 0.3 even if the
reply reported a higher value, but a NaN parsed confidence stays NaN
rather than being capped. -/
theorem c3_invalid_category_capped (r : String)
    (h : (categories.lookup (scanLines (splitTrimLines r)).category).isSome = false) :
    (parseClassificationResponse (some r)).category = "OOPR" ∧
    (parseClassificationResponse (some r)).confidence =
      jsMax (some (1 / 10)) (jsMin (some 1)
        (jsMin (scanLines (splitTrimLines r)).confidence (some (3 / 10)))) ∧
    ∀ q : ℚ, (parseClassificationResponse (some r)).confidence = some q → q ≤ 3 / 10 := by
  by_cases hr : r = ""
  · rw [hr] at h
    exact absurd h (by decide)
  · have hpp : parseClassificationResponse (some r) =
        postProcess (scanLines (splitTrimLines r)) := by
      show (if r = "" then defaultRaw else postProcess (scanLines (splitTrimLines r))) =
        postProcess (scanLines (splitTrimLines r))
      rw [if_neg hr]
    have hcat : (parseClassificationResponse (some r)).category = "OOPR" := by
      rw [hpp]
      unfold postProcess
      simp [h]
    have hconf : (parseClassificationResponse (some r)).confidence =
        jsMax (some (1 / 10)) (jsMin (some 1)
          (jsMin (scanLines (splitTrimLines r)).confidence (some (3 / 10)))) := by
      rw [hpp]
      unfold postProcess
      simp [h]
    refine ⟨hcat, hconf, ?_⟩
    intro q hq
    rw [hconf] at hq
    rcases hc : (scanLines (splitTrimLines r)).confidence with _ | a
    · rw [hc] at hq
      exact Option.noConfusion hq
    · rw [hc] at hq
      simp only [jsMin, jsMax] at hq
      have hq' : max (1 / 10 : ℚ) (min 1 (min a (3 / 10))) = q := by
        injection hq
      rw [← hq']
      apply max_le
      · norm_num
      · exact le_trans (min_le_right _ _) (min_le_right _ _)

/-- Witness for C3 amended at the spec's own example: an unrecognized
code XYZ reported with confidence 0.95 comes back as OOPR with
confidence capped at 0.3. -/
theorem c3_invalid_category_capped_witness :
    (parseClassificationResponse (some "KATEGORI: XYZ\nCONFIDENCE: 0.95")).category = "OOPR" ∧
    ∀ q : ℚ, (parseClassificationResponse (some "KATEGORI: XYZ\nCONFIDENCE: 0.95")).confidence =
      some q → q ≤ 3 / 10 :=
  ⟨(c3_invalid_category_capped "KATEGORI: XYZ\nCONFIDENCE: 0.95" (by decide)).1,
   (c3_invalid_category_capped "KATEGORI: XYZ\nCONFIDENCE: 0.95" (by decide)).2.2⟩

/-- Claim C6 counterexample: in a reply with two category label lines,
first COF then SRF, the parsed category is SRF: the loop overwrites on
every matching line, so the last match wins, not the first as
claimed. -/
theorem c6_counterexample :
    (parseClassificationResponse (some "KATEGORI: COF\nKATEGORI: SRF")).category = "SRF" ∧
    ("SRF" : String) ≠ "COF" := by
  decide

/-- Scanning a well-formed category label line sets exactly the
category field, whatever the prior state. -/
lemma scanLine_kat_code (st : RawParsed) (c : String) (h : c ∈ categoryCodes) :
    scanLine st ("KATEGORI: " ++ c) = { st with category := c } := by
  simp only [categoryCodes, categories, List.map_cons, List.mem_cons] at h
  rcases h with rfl | rfl | rfl | rfl | rfl | rfl | rfl | rfl | rfl | h
  case _ => rfl
  case _ => rfl
  case _ => rfl
  case _ => rfl
  case _ => rfl
  case _ => rfl
  case _ => rfl
  case _ => rfl
  case _ => rfl
  case _ => simp at h

/-- Claim C6 amended: when the model reply contains more than one line
matching the category label pattern, the value extracted from the last
matching line is the one used in the result; every later matching line
overwrites the earlier extraction.  Stated over the scanned line list:
appending a category label line carrying a taxonomy code makes that
code the final category regardless of all earlier lines. -/
theorem c6_last_match_wins (ls : List String) (c : String) (h : c ∈ categoryCodes) :
    (postProcess (scanLines (ls ++ ["KATEGORI: " ++ c]))).category = c := by
  unfold scanLines
  rw [List.foldl_append]
  simp only [List.foldl_cons, List.foldl_nil]
  rw [scanLine_kat_code _ _ h]
  have hvalid : (categories.lookup c).isSome = true := by
    simp only [categoryCodes, categories, List.map_cons, List.mem_cons] at h
    rcases h with rfl | rfl | rfl | rfl | rfl | rfl | rfl | rfl | rfl | h
    case _ => rfl
    case _ => rfl
    case _ => rfl
    case _ => rfl
    case _ => rfl
    case _ => rfl
    case _ => rfl
    case _ => rfl
    case _ => rfl
    case _ => simp at h
  unfold postProcess
  simp [hvalid]

/-- Witness for C6 amended: with an earlier COF label line and a final
SRF label line the result is SRF. -/
theorem c6_last_match_wins_witness :
    (postProcess (scanLines (["KATEGORI: COF"] ++ ["KATEGORI: " ++ "SRF"]))).category = "SRF" :=
  c6_last_match_wins ["KATEGORI: COF"] "SRF" (by decide)

/-- Claim C7 counterexample: the label guard is the case-sensitive
String.prototype.includes, so a lowercase label line is not extracted
at all while its uppercase form is; casing of the label changes the
result, contradicting the claimed label case-insensitivity. -/
theorem c7_counterexample :
    (parseClassificationResponse (some "kategori: COF")).category = "OOPR" ∧
    (parseClassificationResponse (some "KATEGORI: COF")).category = "COF" ∧
    ("OOPR" : String) ≠ "COF" := by
  decide

/-- Claim C7 amended: a label line is recognised only when it contains
the uppercase label token verbatim (the includes guard is
case-sensitive); within a recognised category line the value itself is
matched case-insensitively and upper-cased, so a lowercase code after
an uppercase label still parses to the taxonomy code. -/
theorem c7_uppercase_guard_ci_value (c : String) (h : c ∈ categoryCodes) :
    (parseClassificationResponse (some ("kategori: " ++ c))).category = "OOPR" ∧
    (parseClassificationResponse (some ("KATEGORI: " ++ strToLower c))).category = c := by
  simp only [categoryCodes, categories, List.map_cons, List.mem_cons] at h
  rcases h with rfl | rfl | rfl | rfl | rfl | rfl | rfl | rfl | rfl | h
  case _ => exact ⟨by decide, by decide⟩
  case _ => exact ⟨by decide, by decide⟩
  case _ => exact ⟨by decide, by decide⟩
  case _ => exact ⟨by decide, by decide⟩
  case _ => exact ⟨by decide, by decide⟩
  case _ => exact ⟨by decide, by decide⟩
  case _ => exact ⟨by decide, by decide⟩
  case _ => exact ⟨by decide, by decide⟩
  case _ => exact ⟨by decide, by decide⟩
  case _ => simp at h

/-- Witness for C7 amended at the code COF. -/
theorem c7_uppercase_guard_ci_value_witness :
    (parseClassificationResponse (some ("kategori: " ++ "COF"))).category = "OOPR" ∧
    (parseClassificationResponse (some ("KATEGORI: " ++ strToLower "COF"))).category = "COF" :=
  c7_uppercase_guard_ci_value "COF" (by decide)

/-- Claim C4: in every organization run, the documents successfully
organized into a category c carry, in processing order, exactly the
consecutive three-digit zero-padded numbers starting at that
category's configured start (the padded rendering of start, start + 1,
...): the counter advances by exactly one only on successful
placement, so results that are skipped or fail (classification
failure, unknown category, missing source, copy error) never consume a
number. -/
theorem c4_numbering_consecutive (fs0 : List String) (cfg : String → Option Nat)
    (copyOk : String → String → Bool) (results : List CResult)
    (sourceDir outputDir c : String) :
    ((organizeFilesWithNumbering fs0 cfg copyOk results sourceDir outputDir).organized.filter
        (fun e => e.category = c)).map (fun e => e.documentNumber) =
      (List.range ((organizeFilesWithNumbering fs0 cfg copyOk results sourceDir
          outputDir).organized.filter (fun e => e.category = c)).length).map
        (fun i => padStart3 (natToString (initCounters cfg c + i))) := by
  obtain ⟨k, hcnt, hmap⟩ := org_loop_numbering sourceDir outputDir copyOk c results
    { fs := fs0, counters := initCounters cfg, organized := [], failed := [] }
  dsimp only at hmap
  simp only [List.filter_nil, List.map_nil, List.nil_append] at hmap
  have hlen : ((organizeFilesWithNumbering fs0 cfg copyOk results sourceDir
      outputDir).organized.filter (fun e => e.category = c)).length = k := by
    have hl := congrArg List.length hmap
    simpa using hl
  rw [hlen]
  exact hmap

/-- Claim C10: a caller-supplied numbering override of 0 (or an absent
one) is replaced by the default start 1, so that category's numbering
begins at the padded 1 rather than 0. -/
theorem c10_zero_override_defaults_to_one (fs0 : List String) (cfg : String → Option Nat)
    (copyOk : String → String → Bool) (results : List CResult)
    (sourceDir outputDir c : String) (h : cfg c = some 0 ∨ cfg c = none) :
    initCounters cfg c = 1 ∧
    ((organizeFilesWithNumbering fs0 cfg copyOk results sourceDir outputDir).organized.filter
        (fun e => e.category = c)).map (fun e => e.documentNumber) =
      (List.range ((organizeFilesWithNumbering fs0 cfg copyOk results sourceDir
          outputDir).organized.filter (fun e => e.category = c)).length).map
        (fun i => padStart3 (natToString (1 + i))) := by
  have h1 : initCounters cfg c = 1 := by
    rcases h with h | h <;> simp [initCounters, h]
  refine ⟨h1, ?_⟩
  obtain ⟨k, hcnt, hmap⟩ := org_loop_numbering sourceDir outputDir copyOk c results
    { fs := fs0, counters := initCounters cfg, organized := [], failed := [] }
  dsimp only at hmap
  rw [h1] at hmap
  simp only [List.filter_nil, List.map_nil, List.nil_append] at hmap
  have hlen : ((organizeFilesWithNumbering fs0 cfg copyOk results sourceDir
      outputDir).organized.filter (fun e => e.category = c)).length = k := by
    have hl := congrArg List.length hmap
    simpa using hl
  rw [hlen]
  exact hmap

/-- Witness for C10: one successful COF result under the override
mapping COF to 0 is numbered 001. -/
theorem c10_zero_override_defaults_to_one_witness :
    initCounters (fun x => if x = "COF" then some 0 else none) "COF" = 1 ∧
    ((organizeFilesWithNumbering ["s/a.pdf"] (fun x => if x = "COF" then some 0 else none)
        (fun _ _ => true)
        [{ success := true, category := "COF", categoryName := "COF Scan", requester := "Budi",
           confidence := some (9 / 10), filename := "a.pdf", error := none,
           categoryDescription := none }] "s" "o").organized.filter
        (fun e => e.category = "COF")).map (fun e => e.documentNumber) =
      (List.range ((organizeFilesWithNumbering ["s/a.pdf"]
          (fun x => if x = "COF" then some 0 else none) (fun _ _ => true)
          [{ success := true, category := "COF", categoryName := "COF Scan", requester := "Budi",
             confidence := some (9 / 10), filename := "a.pdf", error := none,
             categoryDescription := none }] "s" "o").organized.filter
          (fun e => e.category = "COF")).length).map
        (fun i => padStart3 (natToString (1 + i))) :=
  c10_zero_override_defaults_to_one ["s/a.pdf"] (fun x => if x = "COF" then some 0 else none)
    (fun _ _ => true)
    [{ success := true, category := "COF", categoryName := "COF Scan", requester := "Budi",
       confidence := some (9 / 10), filename := "a.pdf", error := none,
       categoryDescription := none }] "s" "o" "COF" (Or.inl rfl)

/-- Claim C5: organizing never overwrites: the target paths recorded
for the organized entries of a run are pairwise distinct and none of
them is a path that already existed when the run started (so two
source documents computing the same destination name land in two
distinct files); and whenever the computed destination path already
exists, the resolved path is the first free numeric-suffix candidate:
some suffix k at least 1 whose candidate is free while every smaller
positive suffix's candidate is taken. -/
theorem c5_duplicate_resolution (fs0 : List String) (cfg : String → Option Nat)
    (copyOk : String → String → Bool) (results : List CResult) (sourceDir outputDir : String) :
    (((organizeFilesWithNumbering fs0 cfg copyOk results sourceDir outputDir).organized.map
        (fun e => e.targetPath)).Nodup ∧
      ∀ e ∈ (organizeFilesWithNumbering fs0 cfg copyOk results sourceDir outputDir).organized,
        e.targetPath ∉ fs0) ∧
    (∀ (fs : List String) (td fn : String), pathJoin td fn ∈ fs →
      ∃ k, 1 ≤ k ∧ generateTargetPathWithCustomName fs td fn = dupCandidate td fn k ∧
        dupCandidate td fn k ∉ fs ∧ ∀ j, 1 ≤ j → j < k → dupCandidate td fn j ∈ fs) := by
  constructor
  · have hinv := org_loop_distinct sourceDir outputDir copyOk fs0 results
      { fs := fs0, counters := initCounters cfg, organized := [], failed := [] }
      ⟨by simp, by simp, fun x hx => hx, by simp⟩
    exact ⟨hinv.2.1, hinv.2.2.2⟩
  · intro fs td fn hmem
    exact genTarget_first_slot hmem

/-- Witness for C5 at a concrete collision: the plain path exists, so
the resolved path is a positive-suffix candidate that is free. -/
theorem c5_duplicate_resolution_witness :
    ∃ k, 1 ≤ k ∧
      generateTargetPathWithCustomName ["d/a.pdf"] "d" "a.pdf" = dupCandidate "d" "a.pdf" k ∧
      dupCandidate "d" "a.pdf" k ∉ ["d/a.pdf"] ∧
      ∀ j, 1 ≤ j → j < k → dupCandidate "d" "a.pdf" j ∈ ["d/a.pdf"] :=
  (c5_duplicate_resolution [] (fun _ => none) (fun _ _ => true) [] "s" "o").2
    ["d/a.pdf"] "d" "a.pdf" (by decide)

/-- Claim C8: the acquisition chain first attempts direct structural
extraction and returns it untouched when the trimmed text is nonempty,
consulting no OCR strategy at all; on empty text or a thrown direct
extraction it dispatches to exactly one OCR strategy, the one selected
by the method parameter (the outcome depends only on that strategy's
result); and when that strategy also throws after a failed direct
extraction the chain returns success false with the combined error
message built from both failures. -/
theorem c8_acquisition_chain (env : AcquireEnv) (method : String) :
    (∀ t, env.directResult = .ok t → jsTrimStr t ≠ "" →
      acquireText env method =
        { success := true, text := t, extractionMethod := "direct", errorMsg := none }) ∧
    (∀ f g : String → Except String String, f method = g method →
      acquireText ⟨env.directResult, f⟩ method = acquireText ⟨env.directResult, g⟩ method) ∧
    (∀ e oe, env.directResult = .error e → env.ocrResult method = .error oe →
      acquireText env method =
        { success := false, text := "", extractionMethod := method ++ "-failed",
          errorMsg := some (combinedAcqError e oe) }) ∧
    (∀ t oe, env.directResult = .ok t → jsTrimStr t = "" →
      env.ocrResult method = .error oe →
      acquireText env method =
        { success := false, text := "", extractionMethod := method ++ "-failed",
          errorMsg := some (combinedAcqError "empty text from direct extraction" oe) }) := by
  refine ⟨?_, ?_, ?_, ?_⟩
  · intro t hd ht
    unfold acquireText
    rw [hd]
    simp [ht]
  · intro f g hfg
    unfold acquireText runOcrFallback
    cases hd : env.directResult with
    | ok t =>
      by_cases ht : jsTrimStr t ≠ ""
      · simp [ht]
      · simp only [ht, if_false, hfg]
    | error e =>
      simp only [hfg]
  · intro e oe hd hocr
    unfold acquireText runOcrFallback
    rw [hd, hocr]
  · intro t oe hd ht hocr
    unfold acquireText runOcrFallback
    rw [hd]
    simp [ht, hocr]

/-- Witness for C8: a thrown direct extraction followed by a thrown
tesseract strategy yields the combined failure. -/
theorem c8_acquisition_chain_witness :
    acquireText ⟨.error "pdf-parse failed", fun _ => .error "tesseract not installed"⟩
        "tesseract" =
      { success := false, text := "", extractionMethod := "tesseract" ++ "-failed",
        errorMsg := some (combinedAcqError "pdf-parse failed" "tesseract not installed") } :=
  (c8_acquisition_chain ⟨.error "pdf-parse failed", fun _ => .error "tesseract not installed"⟩
    "tesseract").2.2.1 "pdf-parse failed" "tesseract not installed" rfl rfl

end PdfTextParser
